import Mathlib

/-!
Verification development for the gousb library.

The descriptor decoding engine (descriptor.go) is embedded as pure functions
over byte streams (`List Nat`, each element a byte value).  The reflection
driven field-by-field decode loop of `readDescriptor` is embedded as a schema
interpreter: the `descriptorMap` registry maps a descriptor type code to the
ordered field layout of the registered Go struct, and `decodeFields` replays
`binary.Read` / `ioutil.ReadAll` on each field exactly as the loop does.

The device session and transfer layer (device.go, stddevice.go, usbfs) is
embedded with the operating system as an oracle `OS : IOCall -> Int x Option
OSErr`; each Go function returns its result together with the list of
device-control invocations (ioctl / open / close) it performed, so that
claims about which calls are issued, and with which encoded request records,
are provable.
-/

namespace GoUSB

set_option maxRecDepth 8000

/-- Read errors of the Go io package as they matter to `binary.Read`:
`eof` is io.EOF (no byte could be read), `unexpectedEOF` is
io.ErrUnexpectedEOF (a multi-byte read was cut short). -/
inductive ReadErr
  | eof
  | unexpectedEOF
deriving DecidableEq, Repr

/-- DescriptorHeader (descriptor.go): the leading two bytes of every
descriptor, `Length` (total declared length) and `DescriptorType`. -/
structure DescriptorHeader where
  Length : Nat
  DescriptorType : Nat
deriving DecidableEq, Repr

/-- The kinds of struct fields the reflection loop of `readDescriptor`
distinguishes: fixed-width integers read little-endian with `binary.Read`,
and a `[]uint8` slice field read with `ioutil.ReadAll`. -/
inductive FieldKind
  | u8
  | u16le
  | bytesRemaining
deriving DecidableEq, Repr

/-- A decoded field value: an integer field or a raw byte-slice field. -/
inductive FieldVal
  | num (v : Nat)
  | bytes (bs : List Nat)
deriving DecidableEq, Repr

/-- A decoded descriptor record: its header, whether the type code was found
in the registry (`known = false` means the UnknownDescriptor fallback was
used), and the decoded payload fields in struct order. -/
structure Decoded where
  header : DescriptorHeader
  known : Bool
  fields : List FieldVal
deriving DecidableEq, Repr

/-- The built-in `descriptorMap` registry of descriptor.go, as the ordered
field layout of each registered struct (fields after the embedded header):
Device(1) -> DeviceDescriptor, Config(2) -> ConfigurationDescriptor,
String(3) -> StringDescriptor (a single trailing `Data []byte`),
Interface(4) -> InterfaceDescriptor, Endpoint(5) -> EndpointDescriptor. -/
def descriptorSchema : Nat → Option (List FieldKind)
  | 1 => some [FieldKind.u16le, FieldKind.u8, FieldKind.u8, FieldKind.u8,
               FieldKind.u8, FieldKind.u16le, FieldKind.u16le, FieldKind.u16le,
               FieldKind.u8, FieldKind.u8, FieldKind.u8, FieldKind.u8]
  | 2 => some [FieldKind.u16le, FieldKind.u8, FieldKind.u8, FieldKind.u8,
               FieldKind.u8, FieldKind.u8]
  | 3 => some [FieldKind.bytesRemaining]
  | 4 => some [FieldKind.u8, FieldKind.u8, FieldKind.u8, FieldKind.u8,
               FieldKind.u8, FieldKind.u8, FieldKind.u8]
  | 5 => some [FieldKind.u8, FieldKind.u8, FieldKind.u16le, FieldKind.u8]
  | _ => none

/-- The field loop of `readDescriptor` (descriptor.go): each fixed-width
field is read with `binary.Read` (little-endian); a short read makes
`binary.Read` fail after consuming the remaining bytes and the loop stops
(`break loop`) without an error; a `[]uint8` field is read with
`ioutil.ReadAll`, which consumes every remaining byte of the reader and
never fails at end of input.  Returns the decoded fields and the bytes left
in the reader. -/
def decodeFields : List FieldKind → List Nat → (List FieldVal × List Nat)
  | [], s => ([], s)
  | FieldKind.u8 :: _, [] => ([], [])
  | FieldKind.u8 :: rest, b :: s =>
      let p := decodeFields rest s
      (FieldVal.num b :: p.1, p.2)
  | FieldKind.u16le :: rest, b0 :: b1 :: s =>
      let p := decodeFields rest s
      (FieldVal.num (b0 + 256 * b1) :: p.1, p.2)
  | FieldKind.u16le :: _, [] => ([], [])
  | FieldKind.u16le :: _, [_] => ([], [])
  | FieldKind.bytesRemaining :: rest, s =>
      let p := decodeFields rest []
      (FieldVal.bytes s :: p.1, p.2)

/-- readDescriptor (descriptor.go): look the type code up in the registry;
with a registered struct, decode its fields; otherwise fall back to
UnknownDescriptor, whose only payload field is `Data []uint8` (read with
`ioutil.ReadAll`).  No registered built-in type implements the custom
DescriptorParser interface, so the generic field loop always runs.  The
function never returns an error on short input (`break loop` ends the field
loop silently). -/
def readDescriptor (hdr : DescriptorHeader) (s : List Nat) : Decoded × List Nat :=
  match descriptorSchema hdr.DescriptorType with
  | some sch =>
      let p := decodeFields sch s
      (⟨hdr, true, p.1⟩, p.2)
  | none =>
      let p := decodeFields [FieldKind.bytesRemaining] s
      (⟨hdr, false, p.1⟩, p.2)

/-- The loop of ReadDescriptors (descriptor.go), written with a fuel
argument so that it stays structurally recursive; `readLoop_congr` below
shows any fuel at least the stream length gives the same answer, so the
fuel-exhaustion branch is never taken by `ReadDescriptors`.  Each round
reads a two-byte header with `binary.Read` (io.EOF at a header boundary
ends the loop cleanly; a lone byte gives io.ErrUnexpectedEOF, which is
returned), then decodes one descriptor body. -/
def readLoop : Nat → List Nat → Except ReadErr (List Decoded)
  | _, [] => Except.ok []
  | _, [_] => Except.error ReadErr.unexpectedEOF
  | 0, _ :: _ :: _ => Except.error ReadErr.unexpectedEOF
  | fuel + 1, b0 :: b1 :: rest =>
      let p := readDescriptor ⟨b0, b1⟩ rest
      match readLoop fuel p.2 with
      | Except.ok ds => Except.ok (p.1 :: ds)
      | Except.error e => Except.error e

/-- ReadDescriptors (descriptor.go): repeatedly read a two-byte header and
decode one descriptor, until the header read reports io.EOF (clean end) or
another error (returned).  The produced list is the sequence of values
passed to the callback, in order. -/
def ReadDescriptors (s : List Nat) : Except ReadErr (List Decoded) :=
  readLoop s.length s

/-- ParseDescriptor (descriptor.go): read one header from the byte slice and
decode a single descriptor from the remaining bytes. -/
def ParseDescriptor (data : List Nat) : Except ReadErr Decoded :=
  match data with
  | [] => Except.error ReadErr.eof
  | [_] => Except.error ReadErr.unexpectedEOF
  | b0 :: b1 :: rest => Except.ok (readDescriptor ⟨b0, b1⟩ rest).1

/-- The number of body bytes a schema made only of fixed-width fields
consumes; `none` when the schema contains a `[]uint8` field. -/
def schemaWidth : List FieldKind → Option Nat
  | [] => some 0
  | FieldKind.u8 :: rest => (schemaWidth rest).map (· + 1)
  | FieldKind.u16le :: rest => (schemaWidth rest).map (· + 2)
  | FieldKind.bytesRemaining :: _ => none

/-- The bytes of a well-formed descriptor on the wire: a header whose
declared length is the body length plus the two header bytes, followed by
the body. -/
def descBytes (t : Nat) (body : List Nat) : List Nat :=
  (body.length + 2) :: t :: body

/-- The descriptor type `t` is registered and its schema is fixed-width,
consuming exactly `body`. -/
def FixedBody (t : Nat) (body : List Nat) : Prop :=
  ∃ sch, descriptorSchema t = some sch ∧ schemaWidth sch = some body.length

/-- Replace the declared length stored in the first record of a decode
result (used to state that the decoder never inspects the declared
length). -/
def setFirstLength (n : Nat) : List Decoded → List Decoded
  | [] => []
  | d :: tl => ⟨⟨n, d.header.DescriptorType⟩, d.known, d.fields⟩ :: tl

/-- EndpointDescriptor (descriptor.go): payload fields after the embedded
header. -/
structure EndpointDescriptor where
  header : DescriptorHeader
  BEndpointAddress : Nat
  BmAttributes : Nat
  WMaxPacketSize : Nat
  BInterval : Nat
deriving DecidableEq, Repr

/-- EndpointDescriptor.TransferType (endpoint.go): bits 1:0 of the
attributes byte. -/
def EndpointDescriptor.TransferType (ep : EndpointDescriptor) : Nat :=
  ep.BmAttributes &&& 0b00000011

/-- EndpointDescriptor.SynchronizationType (endpoint.go): bits 3:2 of the
attributes byte. -/
def EndpointDescriptor.SynchronizationType (ep : EndpointDescriptor) : Nat :=
  (ep.BmAttributes &&& 0b00001100) >>> 2

/-- EndpointDescriptor.UsageType (endpoint.go): bits 5:4 of the attributes
byte. -/
def EndpointDescriptor.UsageType (ep : EndpointDescriptor) : Nat :=
  (ep.BmAttributes &&& 0b00110000) >>> 4

/-- An error reported by the operating system (an errno value). -/
inductive OSErr
  | errno (n : Nat)
deriving DecidableEq, Repr

/-- usbdevfs_ctrltransfer (usbfs/ioctl.go): the fixed-layout command record
of a control transfer.  `Data` stands for the byte buffer the kernel is
pointed at (the Go struct stores a pointer to it). -/
structure CtrlTransferRecord where
  RequestType : Nat
  Request : Nat
  Value : Nat
  Index : Nat
  Length : Nat
  Timeout : Nat
  Data : List Nat
deriving DecidableEq, Repr

/-- usbdevfs_bulktransfer (usbfs/ioctl.go): the fixed-layout command record
of a bulk transfer. -/
structure BulkTransferRecord where
  Endpoint : Nat
  Length : Nat
  Timeout : Nat
  Data : List Nat
deriving DecidableEq, Repr

/-- A call into the operating system made by this library: the usbdevfs
ioctls used for transfers, and opening/closing the device file. -/
inductive IOCall
  | ioctlControl (fd : Int) (r : CtrlTransferRecord)
  | ioctlBulk (fd : Int) (r : BulkTransferRecord)
  | openFile (busNumber deviceNumber : Int)
  | closeFile (fd : Int)
deriving DecidableEq, Repr

/-- The operating system as an oracle: each call returns an integer result
and an optional error, exactly the shape of the Go syscall interface used by
the source. -/
def OS : Type := IOCall → Int × Option OSErr

/-- The outcome of running a Go function that either returns normally or
panics at runtime. -/
inductive GoOut (α : Type)
  | ret (a : α)
  | panicked
deriving DecidableEq, Repr

namespace usbfs

/-- The usbdevfs_ctrltransfer record built by ControlTransfer
(usbfs/usbfs.go): a nil payload leaves Length 0 and the buffer empty,
otherwise Length is the payload length truncated to uint16 and the buffer
is the payload. -/
def ctrlRecord (typ request value index timeout : Nat)
    (payload : Option (List Nat)) : CtrlTransferRecord :=
  match payload with
  | none => ⟨typ, request, value, index, 0, timeout, []⟩
  | some p => ⟨typ, request, value, index, p.length % 65536, timeout, p⟩

/-- ControlTransfer (usbfs/usbfs.go): build the command record and issue
exactly one USBDEVFS_CONTROL ioctl on the file descriptor, returning the
ioctl result and error unchanged.  For a non-nil payload the code stores
`slicePtr(payload)`, which dereferences `&payload[0]` — on a non-nil
zero-length payload this panics (index out of range) before the ioctl is
issued, so no call is made. -/
def ControlTransfer (os : OS) (fd : Int) (typ request value index timeout : Nat)
    (payload : Option (List Nat)) : GoOut (Int × Option OSErr) × List IOCall :=
  match payload with
  | some [] => (GoOut.panicked, [])
  | _ =>
      let call := IOCall.ioctlControl fd (ctrlRecord typ request value index timeout payload)
      (GoOut.ret (os call), [call])

/-- The usbdevfs_bulktransfer record built by BulkTransfer
(usbfs/usbfs.go). -/
def bulkRecord (endpoint timeout : Nat) (payload : Option (List Nat)) :
    BulkTransferRecord :=
  match payload with
  | none => ⟨endpoint, 0, timeout, []⟩
  | some p => ⟨endpoint, p.length % 4294967296, timeout, p⟩

/-- BulkTransfer (usbfs/usbfs.go): build the command record and issue
exactly one USBDEVFS_BULK ioctl on the file descriptor.  As in
ControlTransfer, a non-nil zero-length payload panics in slicePtr
(`&payload[0]`) before the ioctl is issued. -/
def BulkTransfer (os : OS) (fd : Int) (endpoint timeout : Nat)
    (payload : Option (List Nat)) : GoOut (Int × Option OSErr) × List IOCall :=
  match payload with
  | some [] => (GoOut.panicked, [])
  | _ =>
      let call := IOCall.ioctlBulk fd (bulkRecord endpoint timeout payload)
      (GoOut.ret (os call), [call])

/-- OpenDevice (usbfs/usbfs.go): open the device file for the bus/device
address; on error return -1 together with the error, otherwise the new file
descriptor. -/
def OpenDevice (os : OS) (busNumber deviceNumber : Int) :
    (Int × Option OSErr) × List IOCall :=
  match os (IOCall.openFile busNumber deviceNumber) with
  | (fd, none) => ((fd, none), [IOCall.openFile busNumber deviceNumber])
  | (_, some e) => ((-1, some e), [IOCall.openFile busNumber deviceNumber])

end usbfs

/-- Device (device.go): a device session; `fd` is -1 while no device file is
open (EnumerateDevices in sysfs.go creates devices with `fd = -1`). -/
structure Device where
  fd : Int
  BusNumber : Int
  DeviceNumber : Int
  Name : String
deriving DecidableEq, Repr

/-- The error returned by Device.Open: the locally raised "device already
open" error, or the error of the underlying open syscall. -/
inductive OpenError
  | alreadyOpen
  | osError (e : OSErr)
deriving DecidableEq, Repr

/-- Device.Open (device.go): fail with "device already open" when `fd` is
not -1 (before any syscall); otherwise open the device file and store the
new file descriptor on success, leaving the session unchanged on failure. -/
def Device.Open (os : OS) (d : Device) : (Option OpenError × Device) × List IOCall :=
  if d.fd ≠ -1 then ((some OpenError.alreadyOpen, d), [])
  else
    match usbfs.OpenDevice os d.BusNumber d.DeviceNumber with
    | ((fd, none), tr) => ((none, { d with fd := fd }), tr)
    | ((_, some e), tr) => ((some (OpenError.osError e), d), tr)

/-- Device.IsOpen (device.go): the session is open exactly when `fd` is not
the -1 sentinel. -/
def Device.IsOpen (d : Device) : Bool :=
  d.fd != -1

/-- Device.Ctrl (device.go): forward to usbfs.ControlTransfer on the stored
file descriptor with a 1000 ms timeout.  There is no open-state check. -/
def Device.Ctrl (os : OS) (d : Device) (typ req value index : Nat)
    (payload : Option (List Nat)) : GoOut (Int × Option OSErr) × List IOCall :=
  usbfs.ControlTransfer os d.fd typ req value index 1000 payload

/-- Device.Bulk (device.go): forward to usbfs.BulkTransfer on the stored
file descriptor (endpoint masked to a byte) with a 1000 ms timeout.  There
is no open-state check. -/
def Device.Bulk (os : OS) (d : Device) (ep : Nat) (data : Option (List Nat)) :
    GoOut (Int × Option OSErr) × List IOCall :=
  usbfs.BulkTransfer os d.fd (ep &&& 0xFF) 1000 data

/-- Device.Close (device.go): close the stored file descriptor and reset
`fd` to -1 unconditionally, returning whatever error the close syscall
reported. -/
def Device.Close (os : OS) (d : Device) : (Option OSErr × Device) × List IOCall :=
  let call := IOCall.closeFile d.fd
  (((os call).2, { d with fd := -1 }), [call])

/-- Request-type bits (constants.go). -/
def RequestDirectionIn : Nat := 0b10000000

/-- Request-type bits (constants.go). -/
def RequestDirectionOut : Nat := 0b00000000

/-- Request-type bits (constants.go). -/
def RequestTypeStandard : Nat := 0b00000000

/-- Request-type bits (constants.go). -/
def RequestRecipientDevice : Nat := 0b00000000

/-- Standard request code (stddevice.go). -/
def ReqGetDescriptor : Nat := 0x06

/-- Standard request code (stddevice.go). -/
def ReqSetSel : Nat := 0x30

/-- Device.GetDescriptor (stddevice.go): issue a GetDescriptor control
transfer with `value = (descriptorType << 8) | idx` and
`index = languageID`, on a fresh zero-filled 256-byte buffer.  The slicing
of the kernel-filled buffer that follows the transfer depends on bytes the
device wrote and is outside this pure model; the embedded function exposes
the transfer outcome and the issued call. -/
def Device.GetDescriptor (os : OS) (d : Device) (descriptorType idx : Fin 256)
    (languageID : Fin 65536) : GoOut (Int × Option OSErr) × List IOCall :=
  Device.Ctrl os d (RequestDirectionIn ||| RequestTypeStandard ||| RequestRecipientDevice)
    ReqGetDescriptor ((descriptorType.val <<< 8) ||| idx.val) languageID.val
    (some (List.replicate 256 0))

/-- Device.SetSEL (stddevice.go): build the 6-byte exit-latency payload
with binary.LittleEndian.PutUint16 for the two 16-bit fields (low byte
`v % 256`, high byte `(v >> 8) % 256`) and issue a SetSel OUT control
transfer with value 0 and index 0. -/
def Device.SetSEL (os : OS) (d : Device) (u1sel u1pel : Fin 256)
    (u2sel u2pel : Fin 65536) : GoOut (Int × Option OSErr) × List IOCall :=
  let data : List Nat := [u1sel.val, u1pel.val,
    u2sel.val % 256, (u2sel.val >>> 8) % 256,
    u2pel.val % 256, (u2pel.val >>> 8) % 256]
  Device.Ctrl os d (RequestDirectionOut ||| RequestTypeStandard ||| RequestRecipientDevice)
    ReqSetSel 0 0 (some data)

/-- The outcome of running a Go function that can return a value, return an
error, or panic at runtime. -/
inductive GoResult (α : Type)
  | ok (val : α)
  | goErr (e : ReadErr)
  | panicked
deriving DecidableEq, Repr

/-- The `Data []byte` field of a decoded StringDescriptor or
UnknownDescriptor value. -/
def stringData (d : Decoded) : List Nat :=
  match d.fields with
  | [FieldVal.bytes bs] => bs
  | _ => []

/-- Device.GetStringDescriptor (device_std.go), given the content of the
256-byte buffer after the control transfer issued by its GetDescriptor
helper succeeded (the helper ignores the transferred byte count and parses
the whole buffer with ParseDescriptor).  The Go code then evaluates
`desc.(*StringDescriptor)` — a single-value type assertion that panics
unless the decoded dynamic type is StringDescriptor, i.e. unless the type
code is 3 — and the slice expression `strDesc.Data[0 : strDesc.Length-2]`,
whose upper bound is computed in uint8 arithmetic, i.e.
`(Length + 254) % 256`.  A Go slice expression checks that bound against
the slice CAPACITY, not its length: `slack` stands for the backing-array
bytes between the length and the capacity of the Data slice returned by
ioutil.ReadAll (which allocates at least 512 bytes for this read, so slack
has at least 258 entries, all zero in practice); a bound between length
and capacity is legal and yields a longer slice exposing those bytes. -/
def GetStringDescriptor (slack : List Nat) (buff : List Nat) : GoResult (List Nat) :=
  match ParseDescriptor buff with
  | Except.error e => GoResult.goErr e
  | Except.ok desc =>
      if desc.header.DescriptorType = 3 then
        let data := stringData desc
        let bound := (desc.header.Length + 254) % 256
        if bound ≤ data.length + slack.length then
          GoResult.ok ((data ++ slack).take bound)
        else GoResult.panicked
      else GoResult.panicked

/-- A well-behaved operating system: a successful open of a device file
returns a non-negative file descriptor (as Linux does). -/
def GoodOS (os : OS) : Prop :=
  ∀ busNumber deviceNumber : Int,
    (os (IOCall.openFile busNumber deviceNumber)).2 = none →
    0 ≤ (os (IOCall.openFile busNumber deviceNumber)).1

/-- The abstract lifecycle phase of a device session. -/
inductive Phase
  | closed
  | opened
deriving DecidableEq, Repr

/-- The session states reachable through the Open/Close lifecycle, paired
with the abstract phase the history implies: sessions start closed as
created by EnumerateDevices (sysfs.go, `fd: -1`); a successful Open moves
to the opened phase; a failed Open leaves the phase closed; Open called in
the opened phase leaves it opened (it fails without touching the state);
Close always returns to the closed phase. -/
inductive Reach (os : OS) : Device → Phase → Prop
  | init (busNumber deviceNumber : Int) (name : String) :
      Reach os ⟨-1, busNumber, deviceNumber, name⟩ Phase.closed
  | openOk (d d' : Device) (tr : List IOCall) :
      Reach os d Phase.closed →
      Device.Open os d = ((none, d'), tr) →
      Reach os d' Phase.opened
  | openErr (d d' : Device) (e : OpenError) (tr : List IOCall) :
      Reach os d Phase.closed →
      Device.Open os d = ((some e, d'), tr) →
      Reach os d' Phase.closed
  | openWhileOpen (d d' : Device) (r : Option OpenError) (tr : List IOCall) :
      Reach os d Phase.opened →
      Device.Open os d = ((r, d'), tr) →
      Reach os d' Phase.opened
  | closeStep (d : Device) (p : Phase) :
      Reach os d p →
      Reach os (Device.Close os d).1.2 Phase.closed

/-- A trivial oracle used to instantiate theorems at concrete inputs: every
call returns 0 with no error. -/
def osStub : OS := fun _ => (0, none)

/-- An oracle whose open syscall returns file descriptor 3; other calls
return 0.  No call reports an error. -/
def osOpen3 : OS := fun c =>
  match c with
  | IOCall.openFile _ _ => (3, none)
  | _ => (0, none)

/-- A closed device session (fd sentinel -1) at bus 1, device 7. -/
def closedDev : Device := ⟨-1, 1, 7, "1-7"⟩

/-- An open device session holding file descriptor 5. -/
def openDev : Device := ⟨5, 1, 7, "1-7"⟩

/-! ### Supporting lemmas -/

theorem decodeFields_snd_length (sch : List FieldKind) (s : List Nat) :
    (decodeFields sch s).2.length ≤ s.length := by
  induction sch generalizing s with
  | nil => simp [decodeFields]
  | cons k rest ih =>
      cases k with
      | u8 =>
          cases s with
          | nil => simp [decodeFields]
          | cons b s' =>
              simpa [decodeFields] using Nat.le_succ_of_le (ih s')
      | u16le =>
          match s with
          | [] => simp [decodeFields]
          | [b] => simp [decodeFields]
          | b0 :: b1 :: s' =>
              simpa [decodeFields] using
                Nat.le_succ_of_le (Nat.le_succ_of_le (ih s'))
      | bytesRemaining =>
          have h := ih []
          simp only [List.length_nil, Nat.le_zero, List.length_eq_zero] at h
          simp [decodeFields, h]

theorem readDescriptor_header (hdr : DescriptorHeader) (s : List Nat) :
    (readDescriptor hdr s).1.header = hdr := by
  unfold readDescriptor
  cases descriptorSchema hdr.DescriptorType <;> rfl

theorem readDescriptor_snd_length (hdr : DescriptorHeader) (s : List Nat) :
    (readDescriptor hdr s).2.length ≤ s.length := by
  unfold readDescriptor
  cases descriptorSchema hdr.DescriptorType with
  | some sch => simpa using decodeFields_snd_length sch s
  | none => simpa using decodeFields_snd_length [FieldKind.bytesRemaining] s

theorem readLoop_congr (fuel fuel' : Nat) (s : List Nat)
    (h : s.length ≤ fuel) (h' : s.length ≤ fuel') :
    readLoop fuel s = readLoop fuel' s := by
  induction fuel generalizing fuel' s with
  | zero =>
      match s with
      | [] => cases fuel' <;> rfl
      | [b] => simp at h
      | b0 :: b1 :: rest => simp at h
  | succ f ih =>
      match s with
      | [] => cases fuel' <;> rfl
      | [b] =>
          match fuel' with
          | 0 => simp at h'
          | f' + 1 => rfl
      | b0 :: b1 :: rest =>
          match fuel' with
          | 0 => simp at h'
          | f' + 1 =>
              have hlen := readDescriptor_snd_length ⟨b0, b1⟩ rest
              have hr : (readDescriptor ⟨b0, b1⟩ rest).2.length ≤ f := by
                simp at h; omega
              have hr' : (readDescriptor ⟨b0, b1⟩ rest).2.length ≤ f' := by
                simp at h'; omega
              simp only [readLoop]
              rw [ih f' (readDescriptor ⟨b0, b1⟩ rest).2 hr hr']

/-- One unfolding step of `ReadDescriptors` on a stream with at least a
complete header. -/
theorem ReadDescriptors_cons (b0 b1 : Nat) (rest : List Nat) :
    ReadDescriptors (b0 :: b1 :: rest) =
      (match ReadDescriptors (readDescriptor ⟨b0, b1⟩ rest).2 with
       | Except.ok ds => Except.ok ((readDescriptor ⟨b0, b1⟩ rest).1 :: ds)
       | Except.error e => Except.error e) := by
  have hlen := readDescriptor_snd_length ⟨b0, b1⟩ rest
  show readLoop (rest.length + 2) (b0 :: b1 :: rest) = _
  simp only [readLoop]
  rw [readLoop_congr (rest.length + 1) (readDescriptor ⟨b0, b1⟩ rest).2.length
        (readDescriptor ⟨b0, b1⟩ rest).2 (by omega) (by omega)]
  rfl

/-- A fixed-width schema whose width equals the body length consumes exactly
the body, leaving the rest of the stream untouched. -/
theorem decodeFields_exact (sch : List FieldKind) (body rest : List Nat)
    (h : schemaWidth sch = some body.length) :
    (decodeFields sch (body ++ rest)).2 = rest ∧
    (decodeFields sch (body ++ rest)).1.length = sch.length := by
  induction sch generalizing body rest with
  | nil =>
      simp [schemaWidth] at h
      have hb : body = [] := by
        cases body with
        | nil => rfl
        | cons b tl => simp at h
      subst hb
      simp [decodeFields]
  | cons k tail ih =>
      cases k with
      | u8 =>
          simp only [schemaWidth, Option.map_eq_some'] at h
          obtain ⟨w, hw, hlen⟩ := h
          cases body with
          | nil => simp at hlen
          | cons b body' =>
              have hwl : w = body'.length := by simp at hlen; omega
              have hw' : schemaWidth tail = some body'.length := by
                rw [← hwl]; exact hw
              simp only [List.cons_append, decodeFields]
              have := ih body' rest hw'
              simp [this.1, this.2]
      | u16le =>
          simp only [schemaWidth, Option.map_eq_some'] at h
          obtain ⟨w, hw, hlen⟩ := h
          match body with
          | [] => simp at hlen
          | [b] => simp at hlen
          | b0 :: b1 :: body' =>
              have hwl : w = body'.length := by simp at hlen; omega
              have hw' : schemaWidth tail = some body'.length := by
                rw [← hwl]; exact hw
              simp only [List.cons_append, decodeFields]
              have := ih body' rest hw'
              simp [this.1, this.2]
      | bytesRemaining => simp [schemaWidth] at h

/-- When the available bytes fall short of a fixed-width schema, the field
loop consumes everything that is left (binary.Read reads through io.ReadFull
before failing and the loop stops). -/
theorem decodeFields_short (sch : List FieldKind) (s : List Nat) (w : Nat)
    (h : schemaWidth sch = some w) (hs : s.length < w) :
    (decodeFields sch s).2 = [] := by
  induction sch generalizing s w with
  | nil =>
      simp [schemaWidth] at h
      omega
  | cons k tail ih =>
      cases k with
      | u8 =>
          simp only [schemaWidth, Option.map_eq_some'] at h
          obtain ⟨w', hw', hlen⟩ := h
          cases s with
          | nil => simp [decodeFields]
          | cons b s' =>
              have : s'.length < w' := by simp at hs ⊢; omega
              simpa [decodeFields] using ih s' w' hw' this
      | u16le =>
          simp only [schemaWidth, Option.map_eq_some'] at h
          obtain ⟨w', hw', hlen⟩ := h
          match s with
          | [] => simp [decodeFields]
          | [b] => simp [decodeFields]
          | b0 :: b1 :: s' =>
              have : s'.length < w' := by simp at hs ⊢; omega
              simpa [decodeFields] using ih s' w' hw' this
      | bytesRemaining => simp [schemaWidth] at h

/-- A stream tiled by registered fixed-width descriptors decodes cleanly,
one record per descriptor. -/
theorem readAll_tiled (items : List (Nat × List Nat))
    (h : ∀ p ∈ items, FixedBody p.1 p.2) :
    ∃ ds, ReadDescriptors ((items.map fun p => descBytes p.1 p.2).flatten) =
            Except.ok ds ∧ ds.length = items.length := by
  induction items with
  | nil => exact ⟨[], rfl, rfl⟩
  | cons it tl ih =>
      obtain ⟨sch, hsch, hw⟩ := h it (by simp)
      obtain ⟨ds, hds, hlen⟩ := ih (fun p hp => h p (by simp [hp]))
      refine ⟨⟨⟨it.2.length + 2, it.1⟩, true, (decodeFields sch
        (it.2 ++ (tl.map fun p => descBytes p.1 p.2).flatten)).1⟩ :: ds, ?_, by simp [hlen]⟩
      have hjoin : ((it :: tl).map fun p => descBytes p.1 p.2).flatten =
          (it.2.length + 2) :: it.1 :: (it.2 ++ (tl.map fun p => descBytes p.1 p.2).flatten) := by
        simp [descBytes]
      rw [hjoin, ReadDescriptors_cons]
      have hexact := decodeFields_exact sch it.2 ((tl.map fun p => descBytes p.1 p.2).flatten) hw
      simp only [readDescriptor, hsch]
      rw [hexact.1, hds]

/-- ControlTransfer on a payload that is nil or non-empty (the cases that do
not hit the slicePtr panic) issues exactly its one ioctl and returns the
oracle's answer for it. -/
theorem ControlTransfer_run (os : OS) (fd : Int)
    (typ request value index timeout : Nat) (payload : Option (List Nat))
    (hp : payload ≠ some []) :
    usbfs.ControlTransfer os fd typ request value index timeout payload =
      (GoOut.ret (os (IOCall.ioctlControl fd
          (usbfs.ctrlRecord typ request value index timeout payload))),
       [IOCall.ioctlControl fd
          (usbfs.ctrlRecord typ request value index timeout payload)]) := by
  cases payload with
  | none => rfl
  | some l =>
      cases l with
      | nil => exact absurd rfl hp
      | cons b bs => rfl

/-- BulkTransfer on a payload that is nil or non-empty issues exactly its
one ioctl and returns the oracle's answer for it. -/
theorem BulkTransfer_run (os : OS) (fd : Int) (endpoint timeout : Nat)
    (payload : Option (List Nat)) (hp : payload ≠ some []) :
    usbfs.BulkTransfer os fd endpoint timeout payload =
      (GoOut.ret (os (IOCall.ioctlBulk fd
          (usbfs.bulkRecord endpoint timeout payload))),
       [IOCall.ioctlBulk fd (usbfs.bulkRecord endpoint timeout payload)]) := by
  cases payload with
  | none => rfl
  | some l =>
      cases l with
      | nil => exact absurd rfl hp
      | cons b bs => rfl

/-! ### Claim C1 -/

/-- C1 counterexample: on the stream `[03 99 AA | 04 05 81 02]` — an
unregistered descriptor (type 0x99, declared length 3, body `[AA]`)
followed by an endpoint descriptor — the decoder produces a single Unknown
record whose Data is the whole remaining stream `[AA 04 05 81 02]`, not
`[AA]`, and no second record; so the decoder does not restrict a trailing
byte-array read to the declared body, and does not reposition to the next
header using the declared length. -/
theorem C1_counterexample :
    ReadDescriptors [3, 0x99, 0xAA, 4, 5, 0x81, 2] =
      Except.ok [⟨⟨3, 0x99⟩, false, [FieldVal.bytes [0xAA, 4, 5, 0x81, 2]]⟩] ∧
    (ReadDescriptors [3, 0x99, 0xAA, 4, 5, 0x81, 2]).map List.length =
      Except.ok 1 ∧ (1 : Nat) ≠ 2 :=
  ⟨rfl, rfl, by decide⟩

/-- C1 (amended): when the stream decoder encounters a descriptor whose
type code has no registered schema, or a registered descriptor with a
trailing byte-array field (type 3, StringDescriptor), the `[]uint8` field
consumes every remaining byte of the stream, the resulting record carries
all of those bytes as its Data, and no further descriptors are decoded:
the declared length is not used to bound the read or to reposition. -/
theorem C1_amended (b0 t : Nat) (body : List Nat)
    (h : descriptorSchema t = none) :
    ReadDescriptors (b0 :: t :: body) =
      Except.ok [⟨⟨b0, t⟩, false, [FieldVal.bytes body]⟩] ∧
    ReadDescriptors (b0 :: 3 :: body) =
      Except.ok [⟨⟨b0, 3⟩, true, [FieldVal.bytes body]⟩] := by
  constructor
  · rw [ReadDescriptors_cons]
    simp [readDescriptor, h, decodeFields, ReadDescriptors, readLoop]
  · rw [ReadDescriptors_cons]
    simp [readDescriptor,
      show descriptorSchema 3 = some [FieldKind.bytesRemaining] from rfl,
      decodeFields, ReadDescriptors, readLoop]

/-- C1 witness: the amended statement instantiated at the unregistered type
code 0x99 with declared length 3 and body `[AA]`. -/
theorem C1_witness :
    descriptorSchema 0x99 = none ∧
    ReadDescriptors [3, 0x99, 0xAA] =
      Except.ok [⟨⟨3, 0x99⟩, false, [FieldVal.bytes [0xAA]]⟩] :=
  ⟨rfl, (C1_amended 3 0x99 [0xAA] rfl).1⟩

/-! ### Claim C3 -/

/-- C3 counterexample: the stream `[07 05 81 02 00 00]` is an endpoint
descriptor cut one byte short of its declared length 7; the decoder does
not report an error — it returns success with a single record whose field
list stops at the field that could not be read. -/
theorem C3_counterexample :
    ReadDescriptors [7, 5, 0x81, 2, 0, 0] =
      Except.ok [⟨⟨7, 5⟩, true,
        [FieldVal.num 0x81, FieldVal.num 2, FieldVal.num 0]⟩] :=
  rfl

/-- C3 (amended): a stream that is a concatenation of complete fixed-width
registered descriptors decodes cleanly, one record per descriptor; a stream
that ends mid-body (short of the registered schema width) also decodes
cleanly, ending with a record whose fields stop at the truncation — the
only error arises when the stream ends inside a 2-byte header, with exactly
one byte remaining, which surfaces io.ErrUnexpectedEOF. -/
theorem C3_amended :
    (∀ items : List (Nat × List Nat), (∀ p ∈ items, FixedBody p.1 p.2) →
       ∃ ds, ReadDescriptors ((items.map fun p => descBytes p.1 p.2).flatten) =
               Except.ok ds ∧ ds.length = items.length) ∧
    (∀ (b0 t w : Nat) (sch : List FieldKind) (body : List Nat),
       descriptorSchema t = some sch → schemaWidth sch = some w →
       body.length < w →
       ReadDescriptors (b0 :: t :: body) =
         Except.ok [⟨⟨b0, t⟩, true, (decodeFields sch body).1⟩]) ∧
    (∀ b : Nat, ReadDescriptors [b] = Except.error ReadErr.unexpectedEOF) := by
  refine ⟨readAll_tiled, ?_, fun b => rfl⟩
  intro b0 t w sch body hsch hw hshort
  rw [ReadDescriptors_cons]
  have hrest : (decodeFields sch body).2 = [] := decodeFields_short sch body w hw hshort
  simp [readDescriptor, hsch, hrest, ReadDescriptors, readLoop]

/-- C3 witness: the amended statement instantiated at a two-descriptor
stream (an endpoint descriptor then an interface descriptor, both
complete), at a truncated endpoint descriptor, and at the lone byte 9. -/
theorem C3_witness :
    (∃ ds, ReadDescriptors (([((5 : Nat), [0x81, 2, 0, 0, 0]),
        ((4 : Nat), [1, 0, 0, 3, 0, 0, 0])].map fun p => descBytes p.1 p.2).flatten) =
        Except.ok ds ∧ ds.length = 2) ∧
    ReadDescriptors [7, 5, 0x81, 2, 0, 0] =
      Except.ok [⟨⟨7, 5⟩, true,
        (decodeFields [FieldKind.u8, FieldKind.u8, FieldKind.u16le, FieldKind.u8]
          [0x81, 2, 0, 0]).1⟩] ∧
    ReadDescriptors [9] = Except.error ReadErr.unexpectedEOF := by
  refine ⟨C3_amended.1 _ ?_, C3_amended.2.1 7 5 5 _ [0x81, 2, 0, 0] rfl rfl (by decide),
    C3_amended.2.2 9⟩
  intro p hp
  simp only [List.mem_cons, List.not_mem_nil, or_false] at hp
  rcases hp with h | h <;> subst h
  · exact ⟨_, rfl, rfl⟩
  · exact ⟨_, rfl, rfl⟩

/-! ### Claim C4 -/

/-- C4 counterexample: the stream `[00 05 81 02 00 00 00 | 07 05 01 02 00
00 00]` starts with a descriptor whose declared length 0 is below 2; the
decoder reports no error and keeps producing records: it decodes the
endpoint fields from the following bytes and then a second complete
endpoint descriptor. -/
theorem C4_counterexample :
    ReadDescriptors [0, 5, 0x81, 2, 0, 0, 0, 7, 5, 1, 2, 0, 0, 0] =
      Except.ok
        [⟨⟨0, 5⟩, true, [FieldVal.num 0x81, FieldVal.num 2,
           FieldVal.num 0, FieldVal.num 0]⟩,
         ⟨⟨7, 5⟩, true, [FieldVal.num 1, FieldVal.num 2,
           FieldVal.num 0, FieldVal.num 0]⟩] :=
  rfl

/-- C4 (amended): the decoder never validates or even inspects the declared
length: replacing the length byte of the first descriptor header by any
other value changes nothing in the decode result except the stored
`Length` of the first record — in particular, a header with length below 2
is not rejected and decoding continues. -/
theorem C4_amended (b0 b0' t : Nat) (rest : List Nat) :
    ReadDescriptors (b0' :: t :: rest) =
      (ReadDescriptors (b0 :: t :: rest)).map (setFirstLength b0') := by
  rw [ReadDescriptors_cons, ReadDescriptors_cons]
  have hsnd : (readDescriptor ⟨b0', t⟩ rest).2 = (readDescriptor ⟨b0, t⟩ rest).2 := by
    unfold readDescriptor
    cases hd : descriptorSchema t <;> simp [hd]
  have hfst : (readDescriptor ⟨b0', t⟩ rest).1 =
      ⟨⟨b0', t⟩, (readDescriptor ⟨b0, t⟩ rest).1.known,
        (readDescriptor ⟨b0, t⟩ rest).1.fields⟩ := by
    unfold readDescriptor
    cases hd : descriptorSchema t <;> simp [hd]
  rw [hsnd, hfst]
  cases hres : ReadDescriptors (readDescriptor ⟨b0, t⟩ rest).2 <;>
    simp [setFirstLength, Except.map, readDescriptor_header]

/-- C4 witness: the amended statement instantiated at a zero length byte
versus the correct length byte 7 of an endpoint descriptor. -/
theorem C4_witness :
    ReadDescriptors [0, 5, 0x81, 2, 0, 0, 0] =
      (ReadDescriptors [7, 5, 0x81, 2, 0, 0, 0]).map (setFirstLength 0) :=
  C4_amended 7 0 5 [0x81, 2, 0, 0, 0]

/-! ### Claim C2 -/

theorem bitfield_shift_mask :
    ∀ b : Fin 256,
      (b.val &&& 0b00001100) >>> 2 = (b.val >>> 2) &&& 0x3 ∧
      (b.val &&& 0b00110000) >>> 4 = (b.val >>> 4) &&& 0x3 := by
  decide

/-- C2: for every attribute byte below 256, the endpoint bit accessors of
endpoint.go satisfy `TransferType = b &&& 0x3`,
`SynchronizationType = (b >>> 2) &&& 0x3` and
`UsageType = (b >>> 4) &&& 0x3`. -/
theorem C2_endpoint_bit_accessors (ep : EndpointDescriptor)
    (h : ep.BmAttributes < 256) :
    ep.TransferType = ep.BmAttributes &&& 0x3 ∧
    ep.SynchronizationType = (ep.BmAttributes >>> 2) &&& 0x3 ∧
    ep.UsageType = (ep.BmAttributes >>> 4) &&& 0x3 :=
  ⟨rfl, (bitfield_shift_mask ⟨ep.BmAttributes, h⟩).1,
    (bitfield_shift_mask ⟨ep.BmAttributes, h⟩).2⟩

/-- C2 witness: the accessors evaluated on a concrete endpoint descriptor
with attribute byte 0x26 (isochronous, adaptive, implicit feedback). -/
theorem C2_witness :
    (0x26 : Nat) < 256 ∧
    ((⟨⟨7, 5⟩, 0x81, 0x26, 512, 1⟩ : EndpointDescriptor).TransferType =
        0x26 &&& 0x3 ∧
     (⟨⟨7, 5⟩, 0x81, 0x26, 512, 1⟩ : EndpointDescriptor).SynchronizationType =
        (0x26 >>> 2) &&& 0x3 ∧
     (⟨⟨7, 5⟩, 0x81, 0x26, 512, 1⟩ : EndpointDescriptor).UsageType =
        (0x26 >>> 4) &&& 0x3) :=
  ⟨by decide, C2_endpoint_bit_accessors ⟨⟨7, 5⟩, 0x81, 0x26, 512, 1⟩ (by decide)⟩

/-! ### Claim C5 -/

/-- C5: Device.GetDescriptor issues exactly one control transfer whose
request record carries `value = (descriptorType <<< 8) ||| idx` — which
equals `descriptorType * 256 + idx` for byte-sized arguments — and
`index = languageID`, with request type 0x80 (IN | Standard | Device) and
request code 0x06. -/
theorem C5_getDescriptor_encoding (os : OS) (d : Device)
    (t i : Fin 256) (L : Fin 65536) :
    (Device.GetDescriptor os d t i L).2 =
      [IOCall.ioctlControl d.fd
        ⟨0x80, 0x06, (t.val <<< 8) ||| i.val, L.val, 256, 1000,
          List.replicate 256 0⟩] ∧
    (t.val <<< 8) ||| i.val = t.val * 256 + i.val := by
  constructor
  · rfl
  · calc t.val <<< 8 ||| i.val
        = t.val * 2 ^ 8 ||| i.val := by rw [Nat.shiftLeft_eq]
      _ = 2 ^ 8 * t.val ||| i.val := by rw [Nat.mul_comm]
      _ = 2 ^ 8 * t.val + i.val :=
          (Nat.mul_add_lt_is_or (show i.val < 2 ^ 8 from i.isLt) t.val).symm
      _ = t.val * 256 + i.val := by ring

/-- C5 witness: requesting type String (3), index 2, language 0x0409
produces value 0x0302 and index 0x0409 in the issued request record. -/
theorem C5_witness :
    (Device.GetDescriptor osStub openDev 3 2 (0x0409 : Fin 65536)).2 =
      [IOCall.ioctlControl 5
        ⟨0x80, 0x06, 0x0302, 0x0409, 256, 1000, List.replicate 256 0⟩] :=
  (C5_getDescriptor_encoding osStub openDev 3 2 (0x0409 : Fin 65536)).1

/-! ### Claim C6 -/

/-- C6: Device.SetSEL issues exactly one OUT control transfer whose 6-byte
payload is `[u1sel, u1pel, lo u2sel, hi u2sel, lo u2pel, hi u2pel]` with
16-bit fields packed little-endian (low byte `v % 256`, high byte
`v / 256`, and the two bytes reassemble the original value). -/
theorem C6_setSEL_payload (os : OS) (d : Device) (u1sel u1pel : Fin 256)
    (u2sel u2pel : Fin 65536) :
    (Device.SetSEL os d u1sel u1pel u2sel u2pel).2 =
      [IOCall.ioctlControl d.fd
        ⟨0x00, 0x30, 0, 0, 6, 1000,
          [u1sel.val, u1pel.val, u2sel.val % 256, u2sel.val / 256,
           u2pel.val % 256, u2pel.val / 256]⟩] ∧
    u2sel.val % 256 + 256 * (u2sel.val / 256) = u2sel.val ∧
    u2pel.val % 256 + 256 * (u2pel.val / 256) = u2pel.val := by
  have hdiv : ∀ v : Fin 65536, (v.val >>> 8) % 256 = v.val / 256 := by
    intro v
    rw [Nat.shiftRight_eq_div_pow]
    have := v.isLt
    have h8 : (2 : Nat) ^ 8 = 256 := by norm_num
    rw [h8]
    exact Nat.mod_eq_of_lt (by omega)
  refine ⟨?_, ?_, ?_⟩
  · show (usbfs.ControlTransfer os d.fd _ 0x30 0 0 1000 _).2 = _
    simp only [usbfs.ControlTransfer, usbfs.ctrlRecord]
    rw [hdiv u2sel, hdiv u2pel]
    norm_num [RequestDirectionOut, RequestTypeStandard, RequestRecipientDevice,
      Nat.zero_or]
  · omega
  · omega

/-- C6 witness: SetSEL at u1sel 1, u1pel 2, u2sel 0x1234, u2pel 0xBEEF
issues the payload `[01 02 34 12 EF BE]`. -/
theorem C6_witness :
    (Device.SetSEL osStub openDev 1 2 (0x1234 : Fin 65536) (0xBEEF : Fin 65536)).2 =
      [IOCall.ioctlControl 5
        ⟨0x00, 0x30, 0, 0, 6, 1000, [1, 2, 0x34, 0x12, 0xEF, 0xBE]⟩] :=
  (C6_setSEL_payload osStub openDev 1 2 (0x1234 : Fin 65536) (0xBEEF : Fin 65536)).1

/-! ### Claim C7 -/

/-- C7 counterexample: on a Closed session (fd sentinel -1), Ctrl, Bulk and
GetDescriptor do not fail locally before I/O — each issues its
device-control call, carrying fd -1, and no locally raised not-open error
exists in the code (Ctrl's whole result is the oracle's answer to that
call). -/
theorem C7_counterexample :
    closedDev.IsOpen = false ∧
    (Device.Ctrl osStub closedDev 0x80 0x06 0 0 none).2 =
      [IOCall.ioctlControl (-1) ⟨0x80, 0x06, 0, 0, 0, 1000, []⟩] ∧
    (Device.Bulk osStub closedDev 0x81 none).2 =
      [IOCall.ioctlBulk (-1) ⟨0x81, 0, 1000, []⟩] ∧
    (Device.GetDescriptor osStub closedDev 1 0 0).2 =
      [IOCall.ioctlControl (-1)
        ⟨0x80, 0x06, 0x100, 0, 256, 1000, List.replicate 256 0⟩] ∧
    (Device.Ctrl osStub closedDev 0x80 0x06 0 0 none).1 =
      GoOut.ret (osStub (IOCall.ioctlControl (-1)
        ⟨0x80, 0x06, 0, 0, 0, 1000, []⟩)) :=
  ⟨rfl, rfl, rfl, rfl, rfl⟩

/-- C7 (amended): transfer/control operations perform no open-state check
at all: called on a Closed session with a payload that is nil or non-empty
(a non-nil zero-length payload instead panics in slicePtr before any
call), each issues exactly one device-control call carrying the sentinel
fd -1 — the transfer request reaches the OS and the outcome is whatever
the OS returns for that call, not a locally raised not-open error. -/
theorem C7_amended (os : OS) (d : Device) (typ req value index ep : Nat)
    (payload data : Option (List Nat)) (t i : Fin 256) (L : Fin 65536)
    (h : d.fd = -1) (hp : payload ≠ some []) (hdat : data ≠ some []) :
    (Device.Ctrl os d typ req value index payload).2 =
      [IOCall.ioctlControl (-1) (usbfs.ctrlRecord typ req value index 1000 payload)] ∧
    (Device.Ctrl os d typ req value index payload).1 =
      GoOut.ret (os (IOCall.ioctlControl (-1)
        (usbfs.ctrlRecord typ req value index 1000 payload))) ∧
    (Device.Bulk os d ep data).2 =
      [IOCall.ioctlBulk (-1) (usbfs.bulkRecord (ep &&& 0xFF) 1000 data)] ∧
    (Device.GetDescriptor os d t i L).2 =
      [IOCall.ioctlControl (-1)
        (usbfs.ctrlRecord (RequestDirectionIn ||| RequestTypeStandard |||
            RequestRecipientDevice) ReqGetDescriptor ((t.val <<< 8) ||| i.val)
          L.val 1000 (some (List.replicate 256 0)))] := by
  have hc := ControlTransfer_run os d.fd typ req value index 1000 payload hp
  have hb := BulkTransfer_run os d.fd (ep &&& 0xFF) 1000 data hdat
  have hg := ControlTransfer_run os d.fd
      (RequestDirectionIn ||| RequestTypeStandard ||| RequestRecipientDevice)
      ReqGetDescriptor ((t.val <<< 8) ||| i.val) L.val 1000
      (some (List.replicate 256 0)) (by decide)
  exact ⟨(congrArg Prod.snd hc).trans (by rw [h]),
    (congrArg Prod.fst hc).trans (by rw [h]),
    (congrArg Prod.snd hb).trans (by rw [h]),
    (congrArg Prod.snd hg).trans (by rw [h])⟩

/-- C7 witness: the amended statement instantiated on the concrete closed
session, the trivial oracle, and nil payloads. -/
theorem C7_witness :
    (Device.Ctrl osStub closedDev 0x80 0x06 0x0302 0x0409 none).2 =
      [IOCall.ioctlControl (-1)
        (usbfs.ctrlRecord 0x80 0x06 0x0302 0x0409 1000 none)] ∧
    (Device.Ctrl osStub closedDev 0x80 0x06 0x0302 0x0409 none).1 =
      GoOut.ret (osStub (IOCall.ioctlControl (-1)
        (usbfs.ctrlRecord 0x80 0x06 0x0302 0x0409 1000 none))) ∧
    (Device.Bulk osStub closedDev 0x81 none).2 =
      [IOCall.ioctlBulk (-1) (usbfs.bulkRecord (0x81 &&& 0xFF) 1000 none)] ∧
    (Device.GetDescriptor osStub closedDev 1 0 0).2 =
      [IOCall.ioctlControl (-1)
        (usbfs.ctrlRecord (RequestDirectionIn ||| RequestTypeStandard |||
            RequestRecipientDevice) ReqGetDescriptor
          (((1 : Fin 256).val <<< 8) ||| (0 : Fin 256).val)
          (0 : Fin 65536).val 1000 (some (List.replicate 256 0)))] :=
  C7_amended osStub closedDev 0x80 0x06 0x0302 0x0409 0x81 none none 1 0 0 rfl
    (by decide) (by decide)

/-! ### Claim C8 -/

/-- C8: calling Open on a session that is already Open returns the
"device already open" error, performs no syscall, and leaves the session —
including the file descriptor acquired by the first Open — unchanged. -/
theorem C8_open_already_open (os : OS) (d : Device) (h : d.fd ≠ -1) :
    Device.Open os d = ((some OpenError.alreadyOpen, d), []) := by
  unfold Device.Open
  simp [h]

/-- C8 witness: a second Open on the concrete open session (fd 5) fails
with the already-open error and keeps the session intact. -/
theorem C8_witness :
    openDev.fd = 5 ∧
    Device.Open osStub openDev = ((some OpenError.alreadyOpen, openDev), []) :=
  ⟨rfl, C8_open_already_open osStub openDev (by decide)⟩

/-! ### Claim C9 -/

/-- C9: the code can panic on device-controlled input, against the no-panic
guarantee: (a) a successful GetDescriptor(String) transfer whose response
carries a descriptor-type byte other than 3 — e.g. an all-zero buffer from
a device that returned no data — makes GetStringDescriptor's single-value
type assertion `desc.(*StringDescriptor)` panic; (b) a non-nil zero-length
transfer buffer makes ControlTransfer (and BulkTransfer) panic in slicePtr
(`&payload[0]`) before any ioctl is issued, so only a nil buffer is the
valid no-data-stage input; and (c) at the claim's own example — a string
descriptor header with declared length 1 — GetStringDescriptor does not
return an error either: the uint8-wrapped bound 255 stays within
ioutil.ReadAll's 512-byte capacity, so it silently returns a 255-byte
garbage string with a nil error. -/
theorem C9_getStringDescriptor_panics :
    GetStringDescriptor (List.replicate 258 0) (0 :: 0 :: List.replicate 254 0) =
      GoResult.panicked ∧
    usbfs.ControlTransfer osStub 3 0x80 0x06 0x0300 0 1000 (some []) =
      (GoOut.panicked, []) ∧
    usbfs.BulkTransfer osStub 3 0x81 1000 (some []) = (GoOut.panicked, []) ∧
    GetStringDescriptor (List.replicate 258 0) (1 :: 3 :: List.replicate 254 0xAA) =
      GoResult.ok ((List.replicate 254 0xAA ++ List.replicate 258 0).take 255) :=
  ⟨rfl, rfl, rfl, rfl⟩

/-! ### Claim C10 -/

/-- C10: for a well-behaved OS (successful opens return non-negative file
descriptors), (a) after Close — whatever the close syscall reported — the
session's fd is the sentinel -1, IsOpen is false, and a subsequent Open is
not rejected as already-open; (b) every session state reachable through the
Open/Close lifecycle satisfies fd = -1 exactly when the session is in the
Closed phase. -/
theorem C10_close_invariant (os : OS) (h : GoodOS os) :
    (∀ d : Device,
       ((Device.Close os d).1.2).fd = -1 ∧
       Device.IsOpen (Device.Close os d).1.2 = false ∧
       (Device.Open os (Device.Close os d).1.2).1.1 ≠ some OpenError.alreadyOpen) ∧
    (∀ (d : Device) (p : Phase), Reach os d p → (d.fd = -1 ↔ p = Phase.closed)) := by
  constructor
  · intro d
    refine ⟨rfl, rfl, ?_⟩
    show (Device.Open os { d with fd := -1 }).1.1 ≠ some OpenError.alreadyOpen
    unfold Device.Open
    rw [if_neg (by simp)]
    unfold usbfs.OpenDevice
    rcases hc : os (IOCall.openFile d.BusNumber d.DeviceNumber) with ⟨fd, e⟩
    cases e <;> simp [hc]
  · intro d p hreach
    induction hreach with
    | init busNumber deviceNumber name => simp
    | openOk d0 d' tr hr hopen ih =>
        have hfd : d0.fd = -1 := by simpa using ih
        unfold Device.Open at hopen
        rw [if_neg (by simp [hfd])] at hopen
        unfold usbfs.OpenDevice at hopen
        rcases hc : os (IOCall.openFile d0.BusNumber d0.DeviceNumber) with ⟨fd, e⟩
        rw [hc] at hopen
        cases e with
        | none =>
            simp only [Prod.mk.injEq] at hopen
            obtain ⟨⟨-, hd'⟩, -⟩ := hopen
            have hok : (os (IOCall.openFile d0.BusNumber d0.DeviceNumber)).2 = none := by
              rw [hc]
            have hpos := h d0.BusNumber d0.DeviceNumber hok
            rw [hc] at hpos
            rw [← hd']
            simp
            omega
        | some e' => simp at hopen
    | openErr d0 d' e tr hr hopen ih =>
        have hfd : d0.fd = -1 := by simpa using ih
        unfold Device.Open at hopen
        rw [if_neg (by simp [hfd])] at hopen
        unfold usbfs.OpenDevice at hopen
        rcases hc : os (IOCall.openFile d0.BusNumber d0.DeviceNumber) with ⟨fd, e0⟩
        rw [hc] at hopen
        cases e0 with
        | none => simp at hopen
        | some e' =>
            simp only [Prod.mk.injEq] at hopen
            obtain ⟨⟨-, hd'⟩, -⟩ := hopen
            rw [← hd']
            simp [hfd]
    | openWhileOpen d0 d' r tr hr hopen ih =>
        have hfd : d0.fd ≠ -1 := by
          intro hcon
          have := ih.mp hcon
          simp at this
        unfold Device.Open at hopen
        rw [if_pos hfd] at hopen
        simp only [Prod.mk.injEq] at hopen
        obtain ⟨⟨-, hd'⟩, -⟩ := hopen
        rw [← hd']
        simp [hfd]
    | closeStep d0 p0 hr ih =>
        simp [Device.Close]

/-- C10 witness: the invariant instantiated on the oracle whose open call
returns fd 3, at a concrete open session (for the Close clauses) and at a
freshly enumerated closed session (for the reachability clause). -/
theorem C10_witness :
    ((Device.Close osOpen3 openDev).1.2).fd = -1 ∧
    Device.IsOpen (Device.Close osOpen3 openDev).1.2 = false ∧
    (Device.Open osOpen3 (Device.Close osOpen3 openDev).1.2).1.1 ≠
      some OpenError.alreadyOpen ∧
    (closedDev.fd = -1 ↔ Phase.closed = Phase.closed) := by
  have hgood : GoodOS osOpen3 := by
    intro busNumber deviceNumber hnone
    show (0 : Int) ≤ 3
    decide
  have h := C10_close_invariant osOpen3 hgood
  exact ⟨(h.1 openDev).1, (h.1 openDev).2.1, (h.1 openDev).2.2,
    h.2 closedDev Phase.closed (Reach.init 1 7 "1-7")⟩

end GoUSB
